import Mathlib

/-!
# Verification of the `anna` session registry and workspace provisioning core

Shallow embedding of `src/winlock/src/lib.rs` (crate `winlock`): the session
registry (`Sessions`), the create-or-resume agent constructor (`Agent::new`),
and the best-effort recursive workspace copy (`copy_workspace`,
`copy_workspace_entry`).

Modelling conventions:
- Filesystem paths are lists of components (`FsPath := List String`).
- The registry file is `RegFile`: `absent` (no file on disk — the Rust code
  turns a failed `read_to_string` into an empty collection), or
  `present parsed` where `parsed : Option (List Session)` is the result of
  JSON parsing (`none` = file present but unparsable, `some ss` = the parsed
  set of sessions). `serde_json` round-tripping of a `HashSet<Session>` is
  assumed faithful, so a successful write stores the collection itself.
- Rust's `HashSet<Session>` is modelled as a `List Session` with set
  operations keyed on FULL record equality, exactly as the derived
  `Eq`/`Hash` on `Session` behave: `hsInsert` is a no-op when an equal record
  is already present, and `hsRemove` drops records equal to the argument.
  Iteration order of a `HashSet` is unspecified; the list fixes one possible
  order (insertion order), which is a legitimate refinement of the code.
- Fallible environment interactions (lockfile open, temp-dir creation, git
  branch operations, recursive directory deletion, branch-name validation,
  the directory-walk enumeration) are oracles in an `Env` record; the lock
  itself (`fslock::LockFile::open`) only OPENS the lock file and never
  acquires the lock, which the cross-process interleaving model below
  reflects.
- Mutating operations thread an explicit state `St` (registry file plus the
  set of directories/files on disk). `Sessions.remove` and `Agent.new`
  return their error (if any) alongside the post state, so that partial
  effects (such as a leaked temporary directory) are observable.
-/

/-- A filesystem path, as a list of components. -/
abbrev FsPath := List String

/-- An existing agent session entry (`struct Session` in the source):
project directory, workspace directory, branch name. Equality is derived
over all three fields, exactly as the Rust `#[derive(PartialEq, Eq, Hash)]`. -/
structure Session where
  project : FsPath
  workspace : FsPath
  branch : String
deriving DecidableEq, Repr

/-- The on-disk registry file (`~/.annawinlock/sessions.json`).
`present none` is a file that exists but fails JSON parsing. -/
inductive RegFile where
  | absent
  | present (parsed : Option (List Session))
deriving DecidableEq, Repr

/-- `HashSet::insert` on full record equality: adds the record unless an
equal record is already present. -/
def hsInsert (s : Session) (ss : List Session) : List Session :=
  if s ∈ ss then ss else ss ++ [s]

/-- `HashSet::remove` on full record equality. -/
def hsRemove (s : Session) (ss : List Session) : List Session :=
  ss.filter (fun x => x != s)

/-- Does path `p` lead to (is it an ancestor of, or equal to) path `q`?
Used to model `remove_dir_all`, which deletes a directory and everything
under it. -/
def leadsTo : FsPath → FsPath → Bool
  | [], _ => true
  | _, [] => false
  | a :: ps, b :: qs => a == b && leadsTo ps qs

/-- `FsPath`-typed relativisation: strip the leading components
`base` from `p`, or fail if `base` does not lead to `p`. -/
def relTo : FsPath → FsPath → Option FsPath
  | [], q => some q
  | _, [] => none
  | a :: ps, b :: qs => if a = b then relTo ps qs else none

/-- The filesystem-and-registry state threaded through the mutating
operations: the registry file, the directories and files that exist on
disk, and a counter from which fresh temporary directory names are drawn. -/
structure St where
  reg : RegFile
  dirs : List FsPath
  files : List FsPath
  nextTemp : Nat
deriving DecidableEq, Repr

/-- The classification `async_fs::FileType` gives a directory entry. -/
inductive FKind where
  | dir
  | file
  | other
deriving DecidableEq, Repr

/-- One entry produced by the directory walk: its absolute path, the result
of reading its file type (`none` = the read failed), and whether the
create-directory/copy-file operation on it would succeed. -/
structure Entry where
  path : FsPath
  kind : Option FKind
  opOk : Bool
deriving DecidableEq, Repr

/-- The environment oracles: whether opening the lock file succeeds, which
branch names `BranchName::from_str` accepts, whether temp-dir creation and
the two git operations succeed, whether `remove_dir_all` on a given path
succeeds, and the stream of walk items seen when copying the project
(`none` = an enumeration error from the walker). -/
structure Env where
  lockOk : Bool
  branchValid : String → Bool
  tempOk : Bool
  gitCreateOk : Bool
  gitSwitchOk : Bool
  removeDirOk : FsPath → Bool
  walk : List (Option Entry)

/-- The fresh temporary directory allocated by the `n`-th `TempDir::new`. -/
def tempPath (n : Nat) : FsPath := ["tmp", Nat.repr n]

namespace Sessions

/-- `Sessions::list_all_inner`: a missing registry file (or an unreadable
one — the code folds any read failure into this case) is an empty
collection; a present but unparsable file is a fatal parse error. -/
def list_all_inner : RegFile → Except String (List Session)
  | .absent => .ok []
  | .present none => .error "parse sessions"
  | .present (some ss) => .ok ss

/-- `Sessions::store_all_inner`: serialise the collection and rewrite the
registry file wholesale. -/
def store_all_inner (ss : List Session) : Except String RegFile :=
  .ok (.present (some ss))

/-- `Sessions::list_all`: open the lock file, then read and parse the
registry. -/
def list_all (e : Env) (reg : RegFile) : Except String (List Session) :=
  if e.lockOk then list_all_inner reg else .error "lock sessions"

/-- `Sessions::list`: the sessions of one project. -/
def list (e : Env) (project : FsPath) (reg : RegFile) :
    Except String (List Session) :=
  (list_all e reg).map (List.filter (fun s => s.project == project))

/-- `Sessions::get`: the first session matching both project and branch. -/
def get (e : Env) (project : FsPath) (branch : String) (reg : RegFile) :
    Except String (Option Session) :=
  (list_all e reg).map
    (List.find? (fun s => s.project == project && s.branch == branch))

/-- `Sessions::store`: under the (opened) lock, read the collection, insert
the new record by full equality, and rewrite the file. On error the file is
untouched, so the caller keeps the old `RegFile`. -/
def store (e : Env) (project workspace : FsPath) (branch : String)
    (reg : RegFile) : Except String RegFile :=
  if e.lockOk then
    match list_all_inner reg with
    | .error _ => .error "list all sessions"
    | .ok ss =>
        store_all_inner
          (hsInsert { project := project, workspace := workspace, branch := branch } ss)
  else .error "lock sessions"

/-- `Sessions::remove`: find the record for `(project, branch)` (the code
tests `branch` first, then `project`). If absent, warn and return
successfully, leaving everything unchanged. If present, recursively delete
the workspace directory (failure aborts with everything unchanged), drop
the record, and rewrite the registry. The result pairs the error, if any,
with the post state. -/
def remove (e : Env) (project : FsPath) (branch : String) (st : St) :
    Option String × St :=
  if e.lockOk then
    match list_all_inner st.reg with
    | .error _ => (some "read sessions", st)
    | .ok ss =>
        match ss.find? (fun s => s.branch == branch && s.project == project) with
        | none => (none, st)
        | some session =>
            if e.removeDirOk session.workspace then
              (none,
                { st with
                    reg := .present (some (hsRemove session ss)),
                    dirs := st.dirs.filter (fun d => !(leadsTo session.workspace d)),
                    files := st.files.filter (fun f => !(leadsTo session.workspace f)) })
            else (some "remove session workspace", st)
  else (some "lock sessions", st)

end Sessions

/-- What materialising one walk entry produced: a created directory or a
copied file, at a destination path. -/
structure CopyOutcome where
  dirsMade : List FsPath
  filesMade : List FsPath
  warnings : Nat
deriving DecidableEq, Repr

/-- `copy_workspace_entry`: relativise the entry path against the project
root, compute the destination under `target`, read the file type, then
create the directory or copy the file; an unknown kind is an error
(`bail!`). Errors carry the context string the Rust code attaches. -/
def copy_workspace_entry (project target : FsPath) (entry : Entry) :
    Except String (FKind × FsPath) :=
  match relTo project entry.path with
  | none => .error "make path relative"
  | some entry_rel =>
      let entry_dst := target ++ entry_rel
      match entry.kind with
      | none => .error "read file type"
      | some .dir =>
          if entry.opOk then .ok (.dir, entry_dst) else .error "create directory"
      | some .file =>
          if entry.opOk then .ok (.file, entry_dst) else .error "copy file"
      | some .other => .error "unknown file kind"

/-- `copy_workspace`: drive the walk to completion. An enumeration error
(`none` item) or a failing `copy_workspace_entry` is logged as a warning
and skipped; every successful entry contributes its destination. -/
def copy_workspace (project target : FsPath) :
    List (Option Entry) → CopyOutcome
  | [] => { dirsMade := [], filesMade := [], warnings := 0 }
  | item :: rest =>
      let r := copy_workspace project target rest
      match item with
      | none => { r with warnings := r.warnings + 1 }
      | some entry =>
          match copy_workspace_entry project target entry with
          | .error _ => { r with warnings := r.warnings + 1 }
          | .ok (.dir, d) => { r with dirsMade := d :: r.dirsMade }
          | .ok (.file, f) => { r with filesMade := f :: r.filesMade }
          | .ok (.other, _) => r

/-- The destination directory a walk item successfully creates, if any. -/
def entryDirMade (project target : FsPath) : Option Entry → Option FsPath
  | none => none
  | some entry =>
      match copy_workspace_entry project target entry with
      | .ok (.dir, d) => some d
      | _ => none

/-- The destination file a walk item successfully copies, if any. -/
def entryFileMade (project target : FsPath) : Option Entry → Option FsPath
  | none => none
  | some entry =>
      match copy_workspace_entry project target entry with
      | .ok (.file, f) => some f
      | _ => none

/-- Is a walk item one that gets logged as a warning and skipped? -/
def entryBad (project target : FsPath) : Option Entry → Bool
  | none => true
  | some entry =>
      match copy_workspace_entry project target entry with
      | .error _ => true
      | .ok _ => false

/-- The session status of an agent instance. -/
inductive AgentSessionStatus where
  | Created
  | Resumed
deriving DecidableEq, Repr

/-- The agent handle returned by `Agent::new`. -/
structure Agent where
  project : FsPath
  workspace : FsPath
  branch : String
  status : AgentSessionStatus
deriving DecidableEq, Repr

/-- `Agent::new` (create-or-resume). If `Sessions::get` yields `Ok(Some _)`,
resume with the stored record, touching nothing. Otherwise (not found OR
`get` failed): validate the branch name, allocate a fresh temporary
directory, best-effort copy the project into it, create and switch to the
branch, and store the session. The post state is returned even on error, so
an allocated-then-orphaned temporary directory stays visible (the code does
not clean it up). -/
def Agent.new (e : Env) (project : FsPath) (branch : String) (st : St) :
    Except String Agent × St :=
  match Sessions.get e project branch st.reg with
  | .ok (some session) =>
      (.ok { project := session.project, workspace := session.workspace,
             branch := session.branch, status := .Resumed }, st)
  | _ =>
      if !(e.branchValid branch) then (.error "parse branch name", st)
      else if !e.tempOk then (.error "create temp dir", st)
      else
        let workspace := tempPath st.nextTemp
        let copied := copy_workspace project workspace e.walk
        let st1 : St :=
          { st with
              dirs := st.dirs ++ [workspace] ++ copied.dirsMade,
              files := st.files ++ copied.filesMade,
              nextTemp := st.nextTemp + 1 }
        if !e.gitCreateOk then (.error "create branch", st1)
        else if !e.gitSwitchOk then (.error "check out new branch", st1)
        else
          match Sessions.store e project workspace branch st1.reg with
          | .error _ => (.error "store session", st1)
          | .ok reg2 =>
              (.ok { project := project, workspace := workspace,
                     branch := branch, status := .Created },
               { st1 with reg := reg2 })

/-!
## Cross-process interleaving model for `Sessions::store`

`Sessions::lockfile` calls `fslock::LockFile::open`, which only opens the
lock file; the code never calls `lock()` on the returned handle, so no
mutual exclusion is established and the scheduler may interleave the steps
of two concurrent `store` invocations freely. Each process runs the
program: open the lock file (pc 0, no effect), load the registry (pc 1),
commit the rewritten registry (pc 2), done (pc 3; pc 4 = halted on a load
error).
-/

/-- The shared registry plus the two processes' program counters and loaded
local copies of the collection. -/
structure Conc2 where
  reg : RegFile
  pcA : Nat
  loadedA : List Session
  pcB : Nat
  loadedB : List Session
deriving DecidableEq, Repr

/-- One scheduler step: run the next micro-step of process A (`who = true`)
or process B. -/
def concStep (sA sB : Session) (st : Conc2) (who : Bool) : Conc2 :=
  if who then
    match st.pcA with
    | 0 => { st with pcA := 1 }
    | 1 =>
        match Sessions.list_all_inner st.reg with
        | .ok ss => { st with pcA := 2, loadedA := ss }
        | .error _ => { st with pcA := 4 }
    | 2 => { st with pcA := 3, reg := .present (some (hsInsert sA st.loadedA)) }
    | _ => st
  else
    match st.pcB with
    | 0 => { st with pcB := 1 }
    | 1 =>
        match Sessions.list_all_inner st.reg with
        | .ok ss => { st with pcB := 2, loadedB := ss }
        | .error _ => { st with pcB := 4 }
    | 2 => { st with pcB := 3, reg := .present (some (hsInsert sB st.loadedB)) }
    | _ => st

/-- Run a schedule (a list of process choices) from a starting state. -/
def concRun (sA sB : Session) (st : Conc2) (sched : List Bool) : Conc2 :=
  sched.foldl (concStep sA sB) st

deriving instance DecidableEq for Except

/-- A concrete environment in which every oracle succeeds. -/
def envW : Env :=
  { lockOk := true, branchValid := fun _ => true, tempOk := true,
    gitCreateOk := true, gitSwitchOk := true,
    removeDirOk := fun _ => true, walk := [] }

/-- A concrete environment in which recursive directory deletion fails. -/
def envNoDel : Env :=
  { lockOk := true, branchValid := fun _ => true, tempOk := true,
    gitCreateOk := true, gitSwitchOk := true,
    removeDirOk := fun _ => false, walk := [] }

theorem leadsTo_refl (p : FsPath) : leadsTo p p = true := by
  induction p with
  | nil => rfl
  | cons a ps ih => simp [leadsTo, ih]

theorem find?_ext {α : Type} (p q : α → Bool) (h : ∀ x, p x = q x) :
    ∀ l : List α, l.find? p = l.find? q
  | [] => rfl
  | x :: xs => by
      simp only [List.find?]
      rw [h x]
      cases q x with
      | true => rfl
      | false => exact find?_ext p q h xs

/-- C1: storing twice for the same `(project, branch)` with different
workspaces leaves TWO records for that key, not one: `Sessions::store`
inserts into a `HashSet<Session>` keyed on full record equality, so the
second store does not replace the first record (nor does it return the
error its own documentation promises). The claim's "exactly one record"
fails at this input. -/
theorem store_twice_two_records :
    Sessions.store envW ["p"] ["w1"] "b" .absent =
      .ok (.present (some [⟨["p"], ["w1"], "b"⟩])) ∧
    Sessions.store envW ["p"] ["w2"] "b" (.present (some [⟨["p"], ["w1"], "b"⟩])) =
      .ok (.present (some [⟨["p"], ["w1"], "b"⟩, ⟨["p"], ["w2"], "b"⟩])) ∧
    List.countP (fun s : Session => s.project == ["p"] && s.branch == "b")
      [⟨["p"], ["w1"], "b"⟩, ⟨["p"], ["w2"], "b"⟩] = 2 := by
  decide

/-- C4: the registry operations never acquire the advisory lock
(`fslock::LockFile::open` only opens the file; `lock()` is never called),
so the micro-steps of two concurrent `store` invocations may interleave.
Under the schedule A-open B-open A-load B-load A-commit B-commit, both
stores run to completion (`pc = 3`) but the final registry holds only
process B's record: process A's record is lost, refuting the
no-lost-update claim. -/
theorem concurrent_store_lost_update :
    concRun ⟨["pA"], ["wA"], "a"⟩ ⟨["pB"], ["wB"], "b"⟩
        ⟨.present (some []), 0, [], 0, []⟩
        [true, false, true, false, true, false] =
      ⟨.present (some [⟨["pB"], ["wB"], "b"⟩]), 3, [], 3, []⟩ ∧
    (⟨["pA"], ["wA"], "a"⟩ : Session) ∉ [(⟨["pB"], ["wB"], "b"⟩ : Session)] := by
  decide

/-- C8: `Sessions::list_all` returns the empty collection when the registry
file does not exist, and fails with the parse error when the file exists
but cannot be parsed. -/
theorem list_all_absent_and_corrupt (e : Env) (h : e.lockOk = true) :
    Sessions.list_all e .absent = .ok [] ∧
    Sessions.list_all e (.present none) = .error "parse sessions" := by
  simp [Sessions.list_all, Sessions.list_all_inner, h]

theorem list_all_absent_and_corrupt_w :
    envW.lockOk = true ∧
    (Sessions.list_all envW .absent = .ok [] ∧
     Sessions.list_all envW (.present none) = .error "parse sessions") :=
  ⟨rfl, list_all_absent_and_corrupt envW rfl⟩

/-- C2 counterexample: from a starting registry that already holds a record
for `(["p"], "b")` with workspace `["w1"]`, storing the session
`⟨["p"], ["w2"], "b"⟩` succeeds, but `Sessions::get` then returns the OLD
record `⟨["p"], ["w1"], "b"⟩`, which differs from the stored session — so
the round-trip claim fails for this starting state. -/
theorem store_get_cex :
    Sessions.store envW ["p"] ["w2"] "b"
        (.present (some [⟨["p"], ["w1"], "b"⟩])) =
      .ok (.present (some [⟨["p"], ["w1"], "b"⟩, ⟨["p"], ["w2"], "b"⟩])) ∧
    Sessions.get envW ["p"] "b"
        (.present (some [⟨["p"], ["w1"], "b"⟩, ⟨["p"], ["w2"], "b"⟩])) =
      .ok (some ⟨["p"], ["w1"], "b"⟩) ∧
    (⟨["p"], ["w1"], "b"⟩ : Session) ≠ ⟨["p"], ["w2"], "b"⟩ := by
  decide

/-- C2 (amended): the store/get round-trip holds whenever the starting
registry contains no record for the `(project, branch)` key: after
`store(p, w, b)` succeeds, `get(p, b)` returns exactly the stored
session. -/
theorem store_get_roundtrip (e : Env) (p w : FsPath) (b : String)
    (reg : RegFile) (ss : List Session)
    (hl : e.lockOk = true)
    (hss : Sessions.list_all_inner reg = .ok ss)
    (hfree : ∀ s ∈ ss, ¬(s.project = p ∧ s.branch = b)) :
    Sessions.store e p w b reg = .ok (.present (some (ss ++ [⟨p, w, b⟩]))) ∧
    Sessions.get e p b (.present (some (ss ++ [⟨p, w, b⟩]))) =
      .ok (some ⟨p, w, b⟩) := by
  have hnew : (⟨p, w, b⟩ : Session) ∉ ss := fun hmem => hfree _ hmem ⟨rfl, rfl⟩
  have hnone : ss.find? (fun s => s.project == p && s.branch == b) = none := by
    rw [List.find?_eq_none]
    intro x hx
    simp only [Bool.and_eq_true, beq_iff_eq]
    exact hfree x hx
  constructor
  · simp [Sessions.store, hl, hss, Sessions.store_all_inner, hsInsert, hnew]
  · simp [Sessions.get, Sessions.list_all, Sessions.list_all_inner, hl,
      Except.map, List.find?_append, hnone, List.find?]

theorem store_get_roundtrip_w :
    envW.lockOk = true ∧
    (Sessions.store envW ["p"] ["w"] "b" .absent =
      .ok (.present (some ([] ++ [⟨["p"], ["w"], "b"⟩]))) ∧
    Sessions.get envW ["p"] "b" (.present (some ([] ++ [⟨["p"], ["w"], "b"⟩]))) =
      .ok (some ⟨["p"], ["w"], "b"⟩)) :=
  ⟨rfl, store_get_roundtrip envW ["p"] ["w"] "b" .absent [] rfl rfl (by simp)⟩

/-- C7: `Sessions::remove` on a `(project, branch)` with no matching record
warns and returns successfully, leaving the registry file, the filesystem
and the whole state unchanged. -/
theorem remove_nonexistent_noop (e : Env) (p : FsPath) (b : String)
    (st : St) (ss : List Session)
    (hl : e.lockOk = true)
    (hss : Sessions.list_all_inner st.reg = .ok ss)
    (habsent : ∀ s ∈ ss, ¬(s.branch = b ∧ s.project = p)) :
    Sessions.remove e p b st = (none, st) := by
  have hfind : ss.find? (fun s => s.branch == b && s.project == p) = none := by
    rw [List.find?_eq_none]
    intro x hx
    simp only [Bool.and_eq_true, beq_iff_eq]
    exact habsent x hx
  simp [Sessions.remove, hl, hss, hfind]

theorem remove_nonexistent_noop_w :
    envW.lockOk = true ∧
    Sessions.remove envW ["p"] "b" ⟨.absent, [], [], 0⟩ =
      (none, ⟨.absent, [], [], 0⟩) :=
  ⟨rfl, remove_nonexistent_noop envW ["p"] "b" ⟨.absent, [], [], 0⟩ [] rfl rfl
    (by simp)⟩

/-- C10: when the recursive deletion of the found session's workspace
fails, `Sessions::remove` returns the error with the state COMPLETELY
unchanged — in particular the registry file is not rewritten — and
`Sessions::get` still returns the session. -/
theorem remove_delete_failure_atomic (e : Env) (p : FsPath) (b : String)
    (st : St) (ss : List Session) (s : Session)
    (hl : e.lockOk = true)
    (hss : Sessions.list_all_inner st.reg = .ok ss)
    (hfind : ss.find? (fun x => x.branch == b && x.project == p) = some s)
    (hfail : e.removeDirOk s.workspace = false) :
    Sessions.remove e p b st = (some "remove session workspace", st) ∧
    Sessions.get e p b st.reg = .ok (some s) := by
  constructor
  · simp [Sessions.remove, hl, hss, hfind, hfail]
  · have hsame :
        ss.find? (fun x => x.project == p && x.branch == b) = some s := by
      rw [find?_ext (fun x => x.project == p && x.branch == b)
        (fun x => x.branch == b && x.project == p) (fun x => Bool.and_comm _ _) ss]
      exact hfind
    simp [Sessions.get, Sessions.list_all, hl, hss, Except.map, hsame]

theorem remove_delete_failure_atomic_w :
    envNoDel.lockOk = true ∧
    (Sessions.remove envNoDel ["p"] "b"
        ⟨.present (some [⟨["p"], ["w"], "b"⟩]), [["w"]], [], 0⟩ =
      (some "remove session workspace",
        ⟨.present (some [⟨["p"], ["w"], "b"⟩]), [["w"]], [], 0⟩) ∧
    Sessions.get envNoDel ["p"] "b" (.present (some [⟨["p"], ["w"], "b"⟩])) =
      .ok (some ⟨["p"], ["w"], "b"⟩)) :=
  ⟨rfl, by
    have h := remove_delete_failure_atomic envNoDel ["p"] "b"
      ⟨.present (some [⟨["p"], ["w"], "b"⟩]), [["w"]], [], 0⟩
      [⟨["p"], ["w"], "b"⟩] ⟨["p"], ["w"], "b"⟩ rfl rfl (by decide) rfl
    exact h⟩

/-- C6 counterexample: a registry holding TWO records for the key
`(["p"], "b")` (reachable because `store` does not replace on key; see the
C1 theorem). `remove` deletes the first record's workspace and rewrites the
registry, succeeds — yet `get` afterwards still returns the surviving
second record instead of nothing. -/
theorem remove_duplicate_key_cex :
    Sessions.remove envW ["p"] "b"
        ⟨.present (some [⟨["p"], ["w1"], "b"⟩, ⟨["p"], ["w2"], "b"⟩]),
          [["w1"], ["w2"]], [], 0⟩ =
      (none, ⟨.present (some [⟨["p"], ["w2"], "b"⟩]), [["w2"]], [], 0⟩) ∧
    Sessions.get envW ["p"] "b" (.present (some [⟨["p"], ["w2"], "b"⟩])) =
      .ok (some ⟨["p"], ["w2"], "b"⟩) := by
  decide

/-- C6 (amended): when the registry holds exactly ONE record for the key
`(project, branch)` and deleting its workspace succeeds,
`Sessions::remove` succeeds, the workspace directory no longer exists, and
`Sessions::get` returns nothing. -/
theorem remove_deletes_workspace (e : Env) (p : FsPath) (b : String)
    (st : St) (ss : List Session) (s : Session)
    (hl : e.lockOk = true)
    (hss : Sessions.list_all_inner st.reg = .ok ss)
    (hmem : s ∈ ss) (hb : s.branch = b) (hp : s.project = p)
    (huniq : ∀ s' ∈ ss, s'.branch = b → s'.project = p → s' = s)
    (hdel : e.removeDirOk s.workspace = true) :
    ∃ st', Sessions.remove e p b st = (none, st') ∧
      s.workspace ∉ st'.dirs ∧
      Sessions.get e p b st'.reg = .ok none := by
  have hfind : ss.find? (fun x => x.branch == b && x.project == p) = some s := by
    cases h : ss.find? (fun x => x.branch == b && x.project == p) with
    | none =>
        exfalso
        have := List.find?_eq_none.mp h s hmem
        simp [hb, hp] at this
    | some s₀ =>
        have hps₀ := List.find?_some h
        simp only [Bool.and_eq_true, beq_iff_eq] at hps₀
        have hmem₀ := List.mem_of_find?_eq_some h
        rw [huniq s₀ hmem₀ hps₀.1 hps₀.2]
  refine ⟨{ reg := .present (some (hsRemove s ss)),
            dirs := st.dirs.filter (fun d => !(leadsTo s.workspace d)),
            files := st.files.filter (fun f => !(leadsTo s.workspace f)),
            nextTemp := st.nextTemp },
          by simp [Sessions.remove, hl, hss, hfind, hdel], ?_, ?_⟩
  · intro hmemd
    have := (List.mem_filter.mp hmemd).2
    simp [leadsTo_refl] at this
  · have hnone :
        (hsRemove s ss).find? (fun x => x.project == p && x.branch == b) = none := by
      rw [List.find?_eq_none]
      intro x hx
      have hxss := List.mem_filter.mp hx
      have hxne : x ≠ s := by simpa [bne_iff_ne] using hxss.2
      simp only [Bool.and_eq_true, beq_iff_eq]
      rintro ⟨hxp, hxb⟩
      exact hxne (huniq x hxss.1 hxb hxp)
    simp [Sessions.get, Sessions.list_all, hl, Sessions.list_all_inner,
      Except.map, hnone]

theorem remove_deletes_workspace_w :
    envW.lockOk = true ∧
    (∃ st', Sessions.remove envW ["p"] "b"
        ⟨.present (some [⟨["p"], ["w"], "b"⟩]), [["w"]], [], 0⟩ = (none, st') ∧
      (["w"] : FsPath) ∉ st'.dirs ∧
      Sessions.get envW ["p"] "b" st'.reg = .ok none) :=
  ⟨rfl, remove_deletes_workspace envW ["p"] "b"
    ⟨.present (some [⟨["p"], ["w"], "b"⟩]), [["w"]], [], 0⟩
    [⟨["p"], ["w"], "b"⟩] ⟨["p"], ["w"], "b"⟩ rfl rfl (by decide) rfl rfl
    (by decide) rfl⟩

/-- C5: when the registry file is present but unparsable, `Agent::new`
fails with an error whatever the other oracles do — `Sessions::get` fails,
the code falls through to the create path, and `Sessions::store` then hits
the same parse error — so no `Created` or `Resumed` handle is ever
returned. -/
theorem agent_new_corrupt_registry_errors (e : Env) (p : FsPath)
    (b : String) (st : St) (hcorrupt : st.reg = .present none) :
    ∃ msg, (Agent.new e p b st).1 = Except.error msg := by
  have hget : ∃ m, Sessions.get e p b st.reg = .error m := by
    by_cases hl : e.lockOk <;>
      simp [Sessions.get, Sessions.list_all, hl, hcorrupt,
        Sessions.list_all_inner, Except.map]
  obtain ⟨m, hget⟩ := hget
  cases hbv : e.branchValid b with
  | false => exact ⟨"parse branch name", by simp [Agent.new, hget, hbv]⟩
  | true =>
    cases ht : e.tempOk with
    | false => exact ⟨"create temp dir", by simp [Agent.new, hget, hbv, ht]⟩
    | true =>
      cases hgc : e.gitCreateOk with
      | false =>
          exact ⟨"create branch", by simp [Agent.new, hget, hbv, ht, hgc]⟩
      | true =>
        cases hgs : e.gitSwitchOk with
        | false =>
            exact ⟨"check out new branch",
              by simp [Agent.new, hget, hbv, ht, hgc, hgs]⟩
        | true =>
          refine ⟨"store session", ?_⟩
          have hst : Sessions.store e p (tempPath st.nextTemp) b st.reg =
              .error (if e.lockOk then "list all sessions" else "lock sessions") := by
            by_cases hl : e.lockOk <;>
              simp [Sessions.store, hl, hcorrupt, Sessions.list_all_inner]
          simp [Agent.new, hget, hbv, ht, hgc, hgs, hst]

theorem agent_new_corrupt_registry_errors_w :
    (⟨.present none, [], [], 0⟩ : St).reg = .present none ∧
    ∃ msg, (Agent.new envW ["p"] "b" ⟨.present none, [], [], 0⟩).1 =
      Except.error msg :=
  ⟨rfl, agent_new_corrupt_registry_errors envW ["p"] "b"
    ⟨.present none, [], [], 0⟩ rfl⟩

/-- C3: starting from a parsable registry with no record for
`(project, branch)` and with all provisioning oracles succeeding, the first
`Agent::new` returns a `Created` handle and the second returns a `Resumed`
handle with the SAME workspace path, leaving the state untouched — in
particular no second temporary workspace directory is allocated
(`st₂ = st₁`, so `nextTemp` and `dirs` are unchanged by the second call). -/
theorem agent_create_then_resume (e : Env) (project : FsPath) (b : String)
    (st : St) (ss : List Session)
    (hl : e.lockOk = true)
    (hbv : e.branchValid b = true)
    (ht : e.tempOk = true)
    (hgc : e.gitCreateOk = true)
    (hgs : e.gitSwitchOk = true)
    (hss : Sessions.list_all_inner st.reg = .ok ss)
    (hnofind : ss.find? (fun s => s.project == project && s.branch == b) = none) :
    ∃ a₁ st₁ a₂ st₂,
      Agent.new e project b st = (.ok a₁, st₁) ∧
      Agent.new e project b st₁ = (.ok a₂, st₂) ∧
      a₁.status = .Created ∧ a₂.status = .Resumed ∧
      a₂.workspace = a₁.workspace ∧ st₂ = st₁ := by
  have hget1 : Sessions.get e project b st.reg = .ok none := by
    simp [Sessions.get, Sessions.list_all, hl, hss, Except.map, hnofind]
  have hnew : (⟨project, tempPath st.nextTemp, b⟩ : Session) ∉ ss := by
    intro hmem
    have := List.find?_eq_none.mp hnofind _ hmem
    simp at this
  have hstore : Sessions.store e project (tempPath st.nextTemp) b st.reg =
      .ok (.present (some (ss ++ [⟨project, tempPath st.nextTemp, b⟩]))) := by
    simp [Sessions.store, hl, hss, Sessions.store_all_inner, hsInsert, hnew]
  have hget2 : Sessions.get e project b
      (.present (some (ss ++ [⟨project, tempPath st.nextTemp, b⟩]))) =
      .ok (some ⟨project, tempPath st.nextTemp, b⟩) := by
    simp [Sessions.get, Sessions.list_all, hl, Sessions.list_all_inner,
      Except.map, List.find?_append, hnofind, List.find?]
  refine ⟨⟨project, tempPath st.nextTemp, b, .Created⟩,
    { reg := .present (some (ss ++ [⟨project, tempPath st.nextTemp, b⟩])),
      dirs := st.dirs ++ [tempPath st.nextTemp] ++
        (copy_workspace project (tempPath st.nextTemp) e.walk).dirsMade,
      files := st.files ++
        (copy_workspace project (tempPath st.nextTemp) e.walk).filesMade,
      nextTemp := st.nextTemp + 1 },
    ⟨project, tempPath st.nextTemp, b, .Resumed⟩,
    { reg := .present (some (ss ++ [⟨project, tempPath st.nextTemp, b⟩])),
      dirs := st.dirs ++ [tempPath st.nextTemp] ++
        (copy_workspace project (tempPath st.nextTemp) e.walk).dirsMade,
      files := st.files ++
        (copy_workspace project (tempPath st.nextTemp) e.walk).filesMade,
      nextTemp := st.nextTemp + 1 },
    ?_, ?_, rfl, rfl, rfl, rfl⟩
  · simp [Agent.new, hget1, hbv, ht, hgc, hgs, hstore]
  · simp [Agent.new, hget2]

theorem agent_create_then_resume_w :
    envW.lockOk = true ∧
    ∃ a₁ st₁ a₂ st₂,
      Agent.new envW ["p"] "b" ⟨.absent, [], [], 0⟩ = (.ok a₁, st₁) ∧
      Agent.new envW ["p"] "b" st₁ = (.ok a₂, st₂) ∧
      a₁.status = .Created ∧ a₂.status = .Resumed ∧
      a₂.workspace = a₁.workspace ∧ st₂ = st₁ :=
  ⟨rfl, agent_create_then_resume envW ["p"] "b" ⟨.absent, [], [], 0⟩ []
    rfl rfl rfl rfl rfl rfl rfl⟩

/-- C9: the copy phase always runs to completion and each walk item's
contribution is independent of every other item's outcome: the directories
created and files copied are exactly those of the individually-successful
entries (in walk order), and each failing or unenumerable item contributes
exactly one warning and is skipped — it never aborts the traversal or
affects the remaining entries. -/
theorem copy_workspace_processes_all (project target : FsPath)
    (walk : List (Option Entry)) :
    copy_workspace project target walk =
      { dirsMade := walk.filterMap (entryDirMade project target),
        filesMade := walk.filterMap (entryFileMade project target),
        warnings := (walk.filter (entryBad project target)).length } := by
  induction walk with
  | nil => rfl
  | cons item rest ih =>
      cases item with
      | none =>
          simp [copy_workspace, entryDirMade, entryFileMade, entryBad, ih]
      | some entry =>
          cases hcw : copy_workspace_entry project target entry with
          | error msg =>
              simp [copy_workspace, entryDirMade, entryFileMade, entryBad,
                hcw, ih]
          | ok kd =>
              obtain ⟨k, d⟩ := kd
              cases k <;>
                simp [copy_workspace, entryDirMade, entryFileMade, entryBad,
                  hcw, ih]
